import Mathlib

/-!
Verification development for the `raft` candidate-refinement kernel.

Part 1 embeds the code-generation script
`cpp/src/neighbors/refine_00_generate.py`: the fixed header text, the
table of type combinations, the files it writes and the lines it prints,
and the template instantiations declared by the
`instantiate_raft_neighbors_refine` macro contained in the header.

Part 2 models the `refine` operation itself (the kernel instantiated by
the generated files) from its specification: exact per-candidate distance
evaluation, top-k selection with deterministic tie-breaking, the host and
accelerator execution variants, and a scheduled (row-by-row) execution
model used to reason about parallel determinism and frame conditions.
-/

namespace RefineGen

/-- The lines of the fixed file header emitted by the generator
(the text of the Python `header` triple-quoted string, split at newlines). -/
def headerLines : List String := [
"",
"/*",
" * Copyright (c) 2023, NVIDIA CORPORATION.",
" *",
" * Licensed under the Apache License, Version 2.0 (the \"License\");",
" * you may not use this file except in compliance with the License.",
" * You may obtain a copy of the License at",
" *",
" *     http://www.apache.org/licenses/LICENSE-2.0",
" *",
" * Unless required by applicable law or agreed to in writing, software",
" * distributed under the License is distributed on an \"AS IS\" BASIS,",
" * WITHOUT WARRANTIES OR CONDITIONS OF ANY KIND, either express or implied.",
" * See the License for the specific language governing permissions and",
" * limitations under the License.",
" */",
"",
"#include <raft/neighbors/refine-inl.cuh>",
"",
"#define instantiate_raft_neighbors_refine(idx_t, data_t, distance_t, matrix_idx)       \\",
"  template void raft::neighbors::refine<idx_t, data_t, distance_t, matrix_idx>(        \\",
"    raft::device_resources const& handle,                                              \\",
"    raft::device_matrix_view<const data_t, matrix_idx, row_major> dataset,             \\",
"    raft::device_matrix_view<const data_t, matrix_idx, row_major> queries,             \\",
"    raft::device_matrix_view<const idx_t, matrix_idx, row_major> neighbor_candidates,  \\",
"    raft::device_matrix_view<idx_t, matrix_idx, row_major> indices,                    \\",
"    raft::device_matrix_view<distance_t, matrix_idx, row_major> distances,             \\",
"    raft::distance::DistanceType metric);                                              \\",
"                                                                                       \\",
"  template void raft::neighbors::refine<idx_t, data_t, distance_t, matrix_idx>(        \\",
"    raft::device_resources const& handle,                                              \\",
"    raft::host_matrix_view<const data_t, matrix_idx, row_major> dataset,               \\",
"    raft::host_matrix_view<const data_t, matrix_idx, row_major> queries,               \\",
"    raft::host_matrix_view<const idx_t, matrix_idx, row_major> neighbor_candidates,    \\",
"    raft::host_matrix_view<idx_t, matrix_idx, row_major> indices,                      \\",
"    raft::host_matrix_view<distance_t, matrix_idx, row_major> distances,               \\",
"    raft::distance::DistanceType metric);",
"",
""]

/-- The fixed header string written at the start of every generated file. -/
def header : String := String.intercalate "\n" headerLines

/-- One entry of the generator's `types` table: the filename infix and the
pair `(data_t, distance_t)`. -/
structure TypeEntry where
  type_path : String
  data_t : String
  distance_t : String
deriving DecidableEq, Repr

/-- The `types` dict of the generator, in its (insertion-preserving)
iteration order. -/
def types : List TypeEntry := [
  ⟨"float_float", "float", "float"⟩,
  ⟨"int8_t_float", "int8_t", "float"⟩,
  ⟨"uint8_t_float", "uint8_t", "float"⟩]

/-- Whether a template instantiation takes host-memory or device-memory
matrix views (the two blocks of the macro body). -/
inductive MemLoc where
  | device : MemLoc
  | host : MemLoc
deriving DecidableEq, Repr

/-- One explicit template instantiation of `raft::neighbors::refine`,
recorded by its four template arguments and the memory side of its views. -/
structure Instantiation where
  idx_t : String
  data_t : String
  distance_t : String
  matrix_idx : String
  mem : MemLoc
deriving DecidableEq, Repr

/-- The instantiations declared by one expansion of the
`instantiate_raft_neighbors_refine(idx_t, data_t, distance_t, matrix_idx)`
macro: one device-view and one host-view instantiation of
`raft::neighbors::refine<idx_t, data_t, distance_t, matrix_idx>`. -/
def instantiate_raft_neighbors_refine
    (idx_t data_t distance_t matrix_idx : String) : List Instantiation :=
  [⟨idx_t, data_t, distance_t, matrix_idx, MemLoc.device⟩,
   ⟨idx_t, data_t, distance_t, matrix_idx, MemLoc.host⟩]

/-- Filename of the generated file for one type entry:
`refine_{type_path}.cu`. -/
def genFileName (t : TypeEntry) : String :=
  "refine_" ++ t.type_path ++ ".cu"

/-- The single macro-invocation line written after the header:
`instantiate_raft_neighbors_refine(int64_t, {data_t}, {distance_t}, int64_t);`
followed by a blank line. -/
def genInvocation (t : TypeEntry) : String :=
  "instantiate_raft_neighbors_refine(int64_t, " ++ t.data_t ++ ", "
    ++ t.distance_t ++ ", int64_t);\n\n"

/-- The `#undef` line ending each generated file. -/
def genUndef : String := "#undef instantiate_raft_neighbors_refine\n"

/-- Full content of the generated file for one type entry: the three
`f.write` calls concatenated. -/
def genFileContent (t : TypeEntry) : String :=
  header ++ genInvocation t ++ genUndef

/-- An observable effect of running the generator script. `fileWrite`
models `open(path, "w")` followed by writes and close: the file at `path`
is replaced in full by `content`. `stdoutLine` models a `print` call. -/
inductive Effect where
  | fileWrite : String → String → Effect
  | stdoutLine : String → Effect
deriving DecidableEq, Repr

/-- The effect trace of running `refine_00_generate.py`: for each entry of
the `types` table, in order, write the generated file and print its
CMake-relative path. -/
def refine_00_generate : List Effect :=
  types.flatMap (fun t =>
    [Effect.fileWrite (genFileName t) (genFileContent t),
     Effect.stdoutLine ("src/neighbors/" ++ genFileName t)])

/-- The file writes of the trace, in order. -/
def generatedFiles : List (String × String) :=
  refine_00_generate.filterMap (fun e =>
    match e with
    | Effect.fileWrite p c => some (p, c)
    | Effect.stdoutLine _ => none)

/-- The stdout lines of the trace, in order. -/
def printedLines : List String :=
  refine_00_generate.filterMap (fun e =>
    match e with
    | Effect.fileWrite _ _ => none
    | Effect.stdoutLine s => some s)

/-- All template instantiations emitted across the generated files: each
file invokes the macro once with `idx_t = int64_t`, `matrix_idx = int64_t`
and the entry's `(data_t, distance_t)`. -/
def emittedInstantiations : List Instantiation :=
  types.flatMap (fun t =>
    instantiate_raft_neighbors_refine "int64_t" t.data_t t.distance_t "int64_t")

end RefineGen

namespace RefineSpec

/-- Modelled from the spec: the metric enumeration of the `refine` kernel
(the kernel body `raft/neighbors/refine-inl.cuh` is not part of this
repository; only its instantiations are). One distance-like metric
(squared Euclidean, ascending selection) and one similarity-like metric
(inner product, descending selection) realise the two polarities the spec
describes. -/
inductive Metric where
  | sqEuclidean : Metric
  | innerProduct : Metric
deriving DecidableEq, Repr

/-- Metric polarity: `true` when smaller values are better (distance-like),
`false` when larger values are better (similarity-like). -/
def metricAscending : Metric → Bool
  | Metric.sqEuclidean => true
  | Metric.innerProduct => false

/-- Modelled from the spec: the Distance Evaluator of the missing kernel.
Squared Euclidean is the sum over dimensions of squared differences;
inner product is the dot product. Elements are modelled as exact
integers, standing for values exactly representable in the working
precision. -/
def dist (m : Metric) (q x : List Int) : Int :=
  match m with
  | Metric.sqEuclidean => (List.zipWith (fun a b => (a - b) * (a - b)) q x).sum
  | Metric.innerProduct => (List.zipWith (fun a b => a * b) q x).sum

/-- Modelled from the spec: the total selection order on
(distance, original dataset index) pairs used by the missing Top-K
Selector: by distance in the metric's polarity first, then smaller
original index first on numerically equal distances. -/
def pairLE (m : Metric) (a b : Int × Nat) : Bool :=
  if metricAscending m then
    decide (a.1 < b.1 ∨ (a.1 = b.1 ∧ a.2 ≤ b.2))
  else
    decide (b.1 < a.1 ∨ (a.1 = b.1 ∧ a.2 ≤ b.2))

/-- The best element of `a :: l` under `le`: the fold keeps the earlier
element on ties, so it returns the least element of the order. -/
def bestOf {α : Type} (le : α → α → Bool) (a : α) (l : List α) : α :=
  l.foldl (fun acc x => if le acc x then acc else x) a

/-- Modelled from the spec: the missing Top-K Selector, as a selection
algorithm (one of the algorithm choices the spec allows): extract the
best remaining element `k` times. -/
def selectTopK {α : Type} [DecidableEq α] (le : α → α → Bool) :
    Nat → List α → List α
  | 0, _ => []
  | _ + 1, [] => []
  | k + 1, a :: l =>
    bestOf le a l :: selectTopK le k ((a :: l).erase (bestOf le a l))

/-- The (distance, original index) pairs of one query's candidate set:
the Evaluator applied to exactly the candidate list, not the whole
dataset. -/
def candidatePairs (dataset : List (List Int)) (m : Metric)
    (q : List Int) (cand : List Nat) : List (Int × Nat) :=
  cand.map (fun idx => (dist m q (dataset.getD idx []), idx))

/-- Modelled from the spec: one row of the missing kernel's output —
Evaluator over the candidate subset, then Top-K Selector. -/
def refineRow (dataset : List (List Int)) (m : Metric) (k : Nat)
    (q : List Int) (cand : List Nat) : List (Int × Nat) :=
  selectTopK (pairLE m) k (candidatePairs dataset m q cand)

/-- The brute-force reference of the spec: the full candidate set of one
query, exhaustively evaluated and sorted by the selection order. -/
def exactSortedRow (dataset : List (List Int)) (m : Metric)
    (q : List Int) (cand : List Nat) : List (Int × Nat) :=
  (candidatePairs dataset m q cand).mergeSort (pairLE m)

/-- Modelled from the spec: the missing `refine` entry point, as a pure
function — each output row is `refineRow` of the matching query row and
candidate row. Rows are (distance, original index) pairs carrying both
output matrices. -/
def refine (dataset queries : List (List Int))
    (candidates : List (List Nat)) (metric : Metric) (k : Nat) :
    List (List (Int × Nat)) :=
  List.zipWith (refineRow dataset metric k) queries candidates

/-- Modelled from the spec: the buffers visible to the missing Refinement
Driver — the three read-only inputs, the call's parameters, and the
output rows being filled in. -/
structure RState where
  dataset : List (List Int)
  queries : List (List Int)
  candidates : List (List Nat)
  metric : Metric
  k : Nat
  outRows : List (List (Int × Nat))
deriving Repr

/-- Initial driver state: inputs as given, every output row empty. -/
def initState (dataset queries : List (List Int))
    (candidates : List (List Nat)) (metric : Metric) (k : Nat) : RState :=
  ⟨dataset, queries, candidates, metric, k,
    List.replicate queries.length []⟩

/-- The row the driver computes for query `i`: reads only the dataset,
query row `i` and candidate row `i` of the state. -/
def rowResult (s : RState) (i : Nat) : List (Int × Nat) :=
  refineRow s.dataset s.metric s.k (s.queries.getD i [])
    (s.candidates.getD i [])

/-- One driver step: compute row `i` and write it into output row `i`;
nothing else in the state changes. -/
def stepRow (s : RState) (i : Nat) : RState :=
  { s with outRows := s.outRows.set i (rowResult s i) }

/-- Modelled from the spec: scheduled execution of the missing driver —
process the query rows in the order given by the schedule `ord`. The
sequential schedule is `List.range m`; any permutation models a different
parallel interleaving. -/
def runSchedule (s : RState) (ord : List Nat) : RState :=
  ord.foldl stepRow s

/-- Modelled from the spec: the two execution variants of the missing
kernel, chosen by where the caller's buffers live. The host path runs
the driver sequentially over the query rows; the accelerator path
computes all rows independently (a parallel map). -/
def refineOn (loc : RefineGen.MemLoc) (dataset queries : List (List Int))
    (candidates : List (List Nat)) (metric : Metric) (k : Nat) :
    List (List (Int × Nat)) :=
  match loc with
  | RefineGen.MemLoc.host =>
    (runSchedule (initState dataset queries candidates metric k)
      (List.range queries.length)).outRows
  | RefineGen.MemLoc.device => refine dataset queries candidates metric k

/-- Concrete dataset of the spec's example scenarios: row 5 is `[1,0]`,
row 2 is `[0,2]`, row 9 is `[3,3]`; rows 3 and 7 are the tie pair `[0,1]`
and `[1,0]`. -/
def exDataset : List (List Int) :=
  [[0, 0], [0, 0], [0, 2], [0, 1], [0, 0],
   [1, 0], [0, 0], [1, 0], [0, 0], [3, 3]]

/-- The single example query `[0,0]`. -/
def exQueries : List (List Int) := [[0, 0]]

/-- Candidate row of the spec's first example: dataset rows 5, 2, 9. -/
def exCandidates : List (List Nat) := [[5, 2, 9]]

/-- Candidate row of the spec's tie example: dataset rows 7 and 3, both
at squared Euclidean distance 1 from the query. -/
def exCandidatesTie : List (List Nat) := [[7, 3]]

end RefineSpec

namespace RefineSpec

/-- The best-of fold returns an element of the scanned list. -/
theorem bestOf_mem {α : Type} (le : α → α → Bool) (a : α) (l : List α) :
    bestOf le a l ∈ a :: l := by
  induction l generalizing a with
  | nil => simp [bestOf]
  | cons x xs ih =>
    have h1 : bestOf le a (x :: xs)
        = bestOf le (if le a x then a else x) xs := rfl
    rw [h1]
    rcases List.mem_cons.mp (ih (if le a x then a else x)) with h | h
    · rw [h]
      by_cases hax : le a x = true
      · simp [hax]
      · simp [hax]
    · exact List.mem_cons_of_mem _ (List.mem_cons_of_mem _ h)

/-- For a total transitive order, the best-of fold is below every element
of the scanned list. -/
theorem bestOf_le {α : Type} (le : α → α → Bool)
    (htot : ∀ a b, (le a b || le b a) = true)
    (htrans : ∀ a b c, le a b = true → le b c = true → le a c = true)
    (a : α) (l : List α) : ∀ x ∈ a :: l, le (bestOf le a l) x = true := by
  induction l generalizing a with
  | nil =>
    intro x hx
    rcases List.mem_cons.mp hx with h | h
    · subst h
      have := htot x x
      simp [bestOf]
      simpa using this
    · cases h
  | cons y ys ih =>
    intro x hx
    have hstep : bestOf le a (y :: ys)
        = bestOf le (if le a y then a else y) ys := rfl
    rw [hstep]
    have hBc : le (bestOf le (if le a y then a else y) ys)
        (if le a y then a else y) = true :=
      ih (if le a y then a else y) _ (List.mem_cons_self _ _)
    rcases List.mem_cons.mp hx with h | h
    · subst h
      by_cases hay : le x y = true
      · simpa [hay] using hBc
      · have hya : le y x = true := by
          have := htot x y
          simp [hay] at this
          exact this
        rw [if_neg hay] at hBc ⊢
        exact htrans _ _ _ hBc hya
    · rcases List.mem_cons.mp h with h2 | h2
      · subst h2
        by_cases hay : le a x = true
        · rw [if_pos hay] at hBc ⊢
          exact htrans _ _ _ hBc hay
        · simpa [hay] using hBc
      · exact ih (if le a y then a else y) x (List.mem_cons_of_mem _ h2)

/-- For a total, transitive, antisymmetric order, `mergeSort` of a
nonempty list starts with the best element, followed by the sort of the
rest. -/
theorem mergeSort_cons_bestOf {α : Type} [DecidableEq α]
    (le : α → α → Bool)
    (hanti : ∀ a b, le a b = true → le b a = true → a = b)
    (htot : ∀ a b, (le a b || le b a) = true)
    (htrans : ∀ a b c, le a b = true → le b c = true → le a c = true)
    (a : α) (l : List α) :
    (a :: l).mergeSort le
      = bestOf le a l :: ((a :: l).erase (bestOf le a l)).mergeSort le := by
  haveI : IsAntisymm α (fun x y => le x y = true) := ⟨hanti⟩
  have hperm : List.Perm ((a :: l).mergeSort le)
      (bestOf le a l :: ((a :: l).erase (bestOf le a l)).mergeSort le) :=
    (List.mergeSort_perm (a :: l) le).trans
      ((List.perm_cons_erase (bestOf_mem le a l)).trans
        (List.Perm.cons _ (List.mergeSort_perm _ le).symm))
  have hs1 : List.Sorted (fun x y => le x y = true) ((a :: l).mergeSort le) :=
    List.sorted_mergeSort htrans htot (a :: l)
  have hs2 : List.Sorted (fun x y => le x y = true)
      (bestOf le a l :: ((a :: l).erase (bestOf le a l)).mergeSort le) := by
    apply List.Pairwise.cons
    · intro x hx
      exact bestOf_le le htot htrans a l x
        (List.mem_of_mem_erase (List.mem_mergeSort.mp hx))
    · exact List.sorted_mergeSort htrans htot _
  exact List.eq_of_perm_of_sorted hperm hs1 hs2

/-- Selection-based top-k equals the first `k` elements of the full
exhaustive sort, for any total, transitive, antisymmetric order. -/
theorem selectTopK_eq_take {α : Type} [DecidableEq α]
    (le : α → α → Bool)
    (hanti : ∀ a b, le a b = true → le b a = true → a = b)
    (htot : ∀ a b, (le a b || le b a) = true)
    (htrans : ∀ a b c, le a b = true → le b c = true → le a c = true)
    (k : Nat) (l : List α) :
    selectTopK le k l = (l.mergeSort le).take k := by
  induction k generalizing l with
  | zero => simp [selectTopK]
  | succ k ih =>
    cases l with
    | nil => simp [selectTopK]
    | cons a t =>
      rw [mergeSort_cons_bestOf le hanti htot htrans a t,
        List.take_succ_cons]
      show bestOf le a t :: selectTopK le k ((a :: t).erase (bestOf le a t))
        = _
      rw [ih]

/-- The pair order is total. -/
theorem pairLE_total (m : Metric) (a b : Int × Nat) :
    (pairLE m a b || pairLE m b a) = true := by
  cases m <;> simp [pairLE, metricAscending] <;> omega

/-- The pair order is transitive. -/
theorem pairLE_trans (m : Metric) (a b c : Int × Nat) :
    pairLE m a b = true → pairLE m b c = true → pairLE m a c = true := by
  cases m <;> simp [pairLE, metricAscending] <;> omega

/-- The pair order is antisymmetric: equal distance and equal index means
equal pair. -/
theorem pairLE_antisymm (m : Metric) (a b : Int × Nat) :
    pairLE m a b = true → pairLE m b a = true → a = b := by
  obtain ⟨a1, a2⟩ := a
  obtain ⟨b1, b2⟩ := b
  cases m <;> simp [pairLE, metricAscending, Prod.mk.injEq] <;> omega

/-- One refined row is the `k`-element front of the exhaustively sorted
candidate set. -/
theorem refineRow_eq_take (dataset : List (List Int)) (m : Metric)
    (k : Nat) (q : List Int) (cand : List Nat) :
    refineRow dataset m k q cand = (exactSortedRow dataset m q cand).take k :=
  selectTopK_eq_take (pairLE m) (pairLE_antisymm m) (pairLE_total m)
    (pairLE_trans m) k (candidatePairs dataset m q cand)

/-- Row `r` of `refine`, for `r` in range. -/
theorem refine_getD (dataset queries : List (List Int))
    (candidates : List (List Nat)) (metric : Metric) (k r : Nat)
    (hq : r < queries.length) (hc : r < candidates.length) :
    (refine dataset queries candidates metric k).getD r []
      = refineRow dataset metric k (queries.getD r [])
          (candidates.getD r []) := by
  have h1 : (refine dataset queries candidates metric k)[r]?
      = some (refineRow dataset metric k queries[r] candidates[r]) := by
    rw [refine, List.getElem?_zipWith]
    rw [List.getElem?_eq_getElem hq, List.getElem?_eq_getElem hc]
  rw [List.getD_eq_getElem?_getD, h1]
  rw [List.getD_eq_getElem?_getD, List.getElem?_eq_getElem hq]
  rw [List.getD_eq_getElem?_getD, List.getElem?_eq_getElem hc]
  rfl

/-- `getD` agrees with `getElem` in range. -/
theorem getD_of_lt {β : Type} (l : List β) (d : β) (j : Nat)
    (h : j < l.length) : l.getD j d = l[j] := by
  rw [List.getD_eq_getElem?_getD, List.getElem?_eq_getElem h]
  rfl

/-- The driver step leaves every field except the output rows unchanged,
so the row a step computes does not depend on earlier steps. -/
theorem rowResult_stepRow (s : RState) (i j : Nat) :
    rowResult (stepRow s j) i = rowResult s i := rfl

/-- The output rows of a step. -/
theorem stepRow_outRows (s : RState) (i : Nat) :
    (stepRow s i).outRows = s.outRows.set i (rowResult s i) := rfl

/-- A scheduled run never changes the input buffers or the call
parameters: only the output rows differ from the initial state. -/
theorem runSchedule_fields (s : RState) (ord : List Nat) :
    (runSchedule s ord).dataset = s.dataset
      ∧ (runSchedule s ord).queries = s.queries
      ∧ (runSchedule s ord).candidates = s.candidates
      ∧ (runSchedule s ord).metric = s.metric
      ∧ (runSchedule s ord).k = s.k := by
  induction ord generalizing s with
  | nil => exact ⟨rfl, rfl, rfl, rfl, rfl⟩
  | cons i rest ih =>
    have h : runSchedule s (i :: rest) = runSchedule (stepRow s i) rest := rfl
    rw [h]
    exact ih (stepRow s i)

/-- Output row `j` after a scheduled run: the computed row for `j` if the
schedule touched `j` (regardless of when, or how often), otherwise the
initial contents. -/
theorem runSchedule_outRows_getElem? (s : RState) (ord : List Nat)
    (j : Nat) :
    (runSchedule s ord).outRows[j]?
      = if j ∈ ord ∧ j < s.outRows.length then some (rowResult s j)
        else s.outRows[j]? := by
  induction ord generalizing s with
  | nil => simp [runSchedule]
  | cons i rest ih =>
    have h : runSchedule s (i :: rest) = runSchedule (stepRow s i) rest := rfl
    rw [h, ih (stepRow s i)]
    simp only [rowResult_stepRow, stepRow_outRows, List.length_set,
      List.getElem?_set, List.mem_cons]
    by_cases hij : j = i
    · subst hij
      by_cases hlen : j < s.outRows.length
      · by_cases hmem : j ∈ rest <;> simp [hmem, hlen]
      · by_cases hmem : j ∈ rest <;>
          simp [hmem, hlen, List.getElem?_eq_none (Nat.le_of_not_lt hlen)]
    · have hij2 : ¬ i = j := fun hx => hij hx.symm
      by_cases hlen : j < s.outRows.length <;>
        by_cases hmem : j ∈ rest <;> simp [hmem, hlen, hij, hij2]

/-- Any row extracted from `refine` is pairwise-ordered under the pair
selection order (rows out of range are empty). -/
theorem refine_row_pairwise (dataset queries : List (List Int))
    (candidates : List (List Nat)) (metric : Metric) (k r : Nat) :
    List.Pairwise (fun a b => pairLE metric a b = true)
      ((refine dataset queries candidates metric k).getD r []) := by
  by_cases hr : r < queries.length ∧ r < candidates.length
  · rw [refine_getD dataset queries candidates metric k r hr.1 hr.2,
      refineRow_eq_take]
    have hs : List.Pairwise (fun a b => pairLE metric a b = true)
        (exactSortedRow dataset metric (queries.getD r [])
          (candidates.getD r [])) :=
      List.sorted_mergeSort (pairLE_trans metric) (pairLE_total metric) _
    exact hs.take
  · have hlen : (refine dataset queries candidates metric k).length ≤ r := by
      simp only [refine, List.length_zipWith]
      omega
    rw [List.getD_eq_getElem?_getD, List.getElem?_eq_none hlen]
    simp

end RefineSpec

namespace RefineSpec

/-- C1: every in-range output row of `refine`, with in-range candidates
and `k` at most the candidate count, equals the first `k` entries of the
exhaustive sort of exactly that query's candidate set under the active
metric. -/
theorem refine_matches_exact_sort (dataset queries : List (List Int))
    (candidates : List (List Nat)) (metric : Metric) (k r : Nat)
    (hq : r < queries.length) (hc : r < candidates.length)
    (_hin : ∀ i ∈ candidates.getD r [], i < dataset.length)
    (_hk : k ≤ (candidates.getD r []).length) :
    (refine dataset queries candidates metric k).getD r []
      = (exactSortedRow dataset metric (queries.getD r [])
          (candidates.getD r [])).take k := by
  rw [refine_getD dataset queries candidates metric k r hq hc,
    refineRow_eq_take]

/-- Witness for C1 at the spec's worked example: query `[0,0]`,
candidates at rows 5, 2, 9, squared Euclidean, `k = 2`. -/
theorem refine_matches_exact_sort_witness :
    0 < exQueries.length ∧ 0 < exCandidates.length
      ∧ (∀ i ∈ exCandidates.getD 0 [], i < exDataset.length)
      ∧ 2 ≤ (exCandidates.getD 0 []).length
      ∧ (refine exDataset exQueries exCandidates Metric.sqEuclidean 2).getD 0 []
        = (exactSortedRow exDataset Metric.sqEuclidean (exQueries.getD 0 [])
            (exCandidates.getD 0 [])).take 2 :=
  ⟨by decide, by decide, by decide, by decide,
    refine_matches_exact_sort exDataset exQueries exCandidates
      Metric.sqEuclidean 2 0 (by decide) (by decide) (by decide) (by decide)⟩

/-- C2: within every output row, distances are monotonically
non-decreasing for the distance-like polarity and non-increasing for the
similarity-like polarity. -/
theorem refine_row_distances_sorted (dataset queries : List (List Int))
    (candidates : List (List Nat)) (metric : Metric) (k r i j : Nat)
    (hij : i < j)
    (hj : j < ((refine dataset queries candidates metric k).getD r []).length) :
    (metricAscending metric = true →
      (((refine dataset queries candidates metric k).getD r []).getD i (0, 0)).1
        ≤ (((refine dataset queries candidates metric k).getD r []).getD j (0, 0)).1)
    ∧ (metricAscending metric = false →
      (((refine dataset queries candidates metric k).getD r []).getD j (0, 0)).1
        ≤ (((refine dataset queries candidates metric k).getD r []).getD i (0, 0)).1) := by
  have hi : i < ((refine dataset queries candidates metric k).getD r []).length :=
    Nat.lt_trans hij hj
  have hp := refine_row_pairwise dataset queries candidates metric k r
  have hrel := (List.pairwise_iff_getElem.mp hp) i j hi hj hij
  rw [getD_of_lt _ _ i hi, getD_of_lt _ _ j hj]
  cases metric <;> simp [pairLE, metricAscending] at hrel ⊢ <;> omega

/-- Witness for C2 at the worked example: positions 0 and 1 of the
refined row. -/
theorem refine_row_distances_sorted_witness :
    (0 : Nat) < 1
      ∧ 1 < ((refine exDataset exQueries exCandidates Metric.sqEuclidean 2).getD 0 []).length
      ∧ ((metricAscending Metric.sqEuclidean = true →
          (((refine exDataset exQueries exCandidates Metric.sqEuclidean 2).getD 0 []).getD 0 (0, 0)).1
            ≤ (((refine exDataset exQueries exCandidates Metric.sqEuclidean 2).getD 0 []).getD 1 (0, 0)).1)
        ∧ (metricAscending Metric.sqEuclidean = false →
          (((refine exDataset exQueries exCandidates Metric.sqEuclidean 2).getD 0 []).getD 1 (0, 0)).1
            ≤ (((refine exDataset exQueries exCandidates Metric.sqEuclidean 2).getD 0 []).getD 0 (0, 0)).1)) :=
  ⟨by decide, by decide,
    refine_row_distances_sorted exDataset exQueries exCandidates
      Metric.sqEuclidean 2 0 0 1 (by decide) (by decide)⟩

/-- C3: among output entries of one row with numerically equal distance,
the entry with the smaller original dataset index comes first (the model
is a pure function of its inputs, so the order is the same under any
scheduling, see the C5 theorem). -/
theorem refine_tie_break_lower_index_first (dataset queries : List (List Int))
    (candidates : List (List Nat)) (metric : Metric) (k r i j : Nat)
    (hij : i < j)
    (hj : j < ((refine dataset queries candidates metric k).getD r []).length)
    (heq : (((refine dataset queries candidates metric k).getD r []).getD i (0, 0)).1
      = (((refine dataset queries candidates metric k).getD r []).getD j (0, 0)).1) :
    (((refine dataset queries candidates metric k).getD r []).getD i (0, 0)).2
      ≤ (((refine dataset queries candidates metric k).getD r []).getD j (0, 0)).2 := by
  have hi : i < ((refine dataset queries candidates metric k).getD r []).length :=
    Nat.lt_trans hij hj
  have hp := refine_row_pairwise dataset queries candidates metric k r
  have hrel := (List.pairwise_iff_getElem.mp hp) i j hi hj hij
  rw [getD_of_lt _ _ i hi, getD_of_lt _ _ j hj] at heq ⊢
  cases metric <;>
    simp [pairLE, metricAscending, -List.getD_eq_getElem?_getD] at hrel <;>
    omega

/-- Witness for C3 at the spec's tie example: rows 7 and 3 both at
squared distance 1; the refined row lists index 3 before index 7. -/
theorem refine_tie_break_lower_index_first_witness :
    (0 : Nat) < 1
      ∧ 1 < ((refine exDataset exQueries exCandidatesTie Metric.sqEuclidean 2).getD 0 []).length
      ∧ (((refine exDataset exQueries exCandidatesTie Metric.sqEuclidean 2).getD 0 []).getD 0 (0, 0)).1
        = (((refine exDataset exQueries exCandidatesTie Metric.sqEuclidean 2).getD 0 []).getD 1 (0, 0)).1
      ∧ (((refine exDataset exQueries exCandidatesTie Metric.sqEuclidean 2).getD 0 []).getD 0 (0, 0)).2
        ≤ (((refine exDataset exQueries exCandidatesTie Metric.sqEuclidean 2).getD 0 []).getD 1 (0, 0)).2 :=
  ⟨by decide, by decide, by decide,
    refine_tie_break_lower_index_first exDataset exQueries exCandidatesTie
      Metric.sqEuclidean 2 0 0 1 (by decide) (by decide) (by decide)⟩

/-- C4: on matching row counts, the host-memory execution variant and the
accelerator-memory execution variant produce identical output rows. -/
theorem refine_host_device_equal (dataset queries : List (List Int))
    (candidates : List (List Nat)) (metric : Metric) (k : Nat)
    (hm : queries.length = candidates.length) :
    refineOn RefineGen.MemLoc.host dataset queries candidates metric k
      = refineOn RefineGen.MemLoc.device dataset queries candidates metric k := by
  show (runSchedule (initState dataset queries candidates metric k)
      (List.range queries.length)).outRows
    = refine dataset queries candidates metric k
  apply List.ext_getElem?
  intro j
  rw [runSchedule_outRows_getElem?]
  by_cases hj : j < queries.length
  · have hc : j < candidates.length := by omega
    have hmem : j ∈ List.range queries.length := List.mem_range.mpr hj
    have hlen : j < (initState dataset queries candidates metric k).outRows.length := by
      simpa [initState] using hj
    rw [if_pos ⟨hmem, hlen⟩]
    have h1 : (refine dataset queries candidates metric k)[j]?
        = some (refineRow dataset metric k queries[j] candidates[j]) := by
      rw [refine, List.getElem?_zipWith, List.getElem?_eq_getElem hj,
        List.getElem?_eq_getElem hc]
    rw [h1]
    congr 1
    show refineRow dataset metric k (queries.getD j []) (candidates.getD j []) = _
    rw [getD_of_lt _ _ j hj, getD_of_lt _ _ j hc]
  · have hmem : j ∉ List.range queries.length := by
      simpa [List.mem_range] using hj
    rw [if_neg (fun hcon => hmem hcon.1)]
    have h2 : (initState dataset queries candidates metric k).outRows[j]? = none := by
      apply List.getElem?_eq_none
      simp only [initState, List.length_replicate]
      omega
    have h3 : (refine dataset queries candidates metric k)[j]? = none := by
      apply List.getElem?_eq_none
      simp only [refine, List.length_zipWith]
      omega
    rw [h2, h3]

/-- Witness for C4 at the worked example. -/
theorem refine_host_device_equal_witness :
    exQueries.length = exCandidates.length
      ∧ refineOn RefineGen.MemLoc.host exDataset exQueries exCandidates
          Metric.sqEuclidean 2
        = refineOn RefineGen.MemLoc.device exDataset exQueries exCandidates
            Metric.sqEuclidean 2 :=
  ⟨by decide,
    refine_host_device_equal exDataset exQueries exCandidates
      Metric.sqEuclidean 2 (by decide)⟩

/-- C5: any schedule that is a permutation of the query rows (any
parallel interleaving) produces exactly the output of the sequential
schedule. -/
theorem refine_deterministic_under_scheduling (dataset queries : List (List Int))
    (candidates : List (List Nat)) (metric : Metric) (k : Nat)
    (ord : List Nat)
    (hperm : List.Perm ord (List.range queries.length)) :
    (runSchedule (initState dataset queries candidates metric k) ord).outRows
      = (runSchedule (initState dataset queries candidates metric k)
          (List.range queries.length)).outRows := by
  apply List.ext_getElem?
  intro j
  rw [runSchedule_outRows_getElem?, runSchedule_outRows_getElem?]
  simp only [hperm.mem_iff]

/-- Witness for C5: the one-row example under the (only) permuted
schedule `[0]`. -/
theorem refine_deterministic_under_scheduling_witness :
    List.Perm [0] (List.range exQueries.length)
      ∧ (runSchedule (initState exDataset exQueries exCandidates
            Metric.sqEuclidean 2) [0]).outRows
        = (runSchedule (initState exDataset exQueries exCandidates
            Metric.sqEuclidean 2) (List.range exQueries.length)).outRows :=
  ⟨by decide,
    refine_deterministic_under_scheduling exDataset exQueries exCandidates
      Metric.sqEuclidean 2 [0] (by decide)⟩

/-- C6: refining with a smaller output width `kp < k` yields, row by row,
exactly the first `kp` entries of the width-`k` output. -/
theorem refine_smaller_k_is_take (dataset queries : List (List Int))
    (candidates : List (List Nat)) (metric : Metric) (k kp r : Nat)
    (hkp : kp < k) :
    (refine dataset queries candidates metric kp).getD r []
      = ((refine dataset queries candidates metric k).getD r []).take kp := by
  by_cases hr : r < queries.length ∧ r < candidates.length
  · rw [refine_getD dataset queries candidates metric kp r hr.1 hr.2,
      refine_getD dataset queries candidates metric k r hr.1 hr.2,
      refineRow_eq_take, refineRow_eq_take, List.take_take]
    have hmin : min kp k = kp := by omega
    rw [hmin]
  · have hlen1 : (refine dataset queries candidates metric kp).length ≤ r := by
      simp only [refine, List.length_zipWith]
      omega
    have hlen2 : (refine dataset queries candidates metric k).length ≤ r := by
      simp only [refine, List.length_zipWith]
      omega
    rw [List.getD_eq_getElem?_getD, List.getElem?_eq_none hlen1,
      List.getD_eq_getElem?_getD, List.getElem?_eq_none hlen2]
    simp

/-- Witness for C6 at the worked example with `kp = 1 < 2 = k`. -/
theorem refine_smaller_k_is_take_witness :
    1 < 2
      ∧ (refine exDataset exQueries exCandidates Metric.sqEuclidean 1).getD 0 []
        = ((refine exDataset exQueries exCandidates Metric.sqEuclidean 2).getD 0 []).take 1 :=
  ⟨by decide,
    refine_smaller_k_is_take exDataset exQueries exCandidates
      Metric.sqEuclidean 2 1 0 (by decide)⟩

/-- C7: under any schedule, a run of the driver leaves the dataset, query
and candidate buffers exactly as given — the driver steps write only
output rows. -/
theorem refine_never_modifies_inputs (dataset queries : List (List Int))
    (candidates : List (List Nat)) (metric : Metric) (k : Nat)
    (ord : List Nat) :
    (runSchedule (initState dataset queries candidates metric k) ord).dataset
        = dataset
      ∧ (runSchedule (initState dataset queries candidates metric k) ord).queries
        = queries
      ∧ (runSchedule (initState dataset queries candidates metric k) ord).candidates
        = candidates := by
  have h := runSchedule_fields (initState dataset queries candidates metric k) ord
  exact ⟨h.1, h.2.1, h.2.2.1⟩

end RefineSpec

/-- C8: the entry point is instantiated for exactly the element types
`float`, `int8_t` and `uint8_t`, and every instantiation uses `float` as
the distance output type. -/
theorem refine_instantiation_element_types :
    (RefineGen.emittedInstantiations.map (fun i => i.data_t)).dedup
        = ["float", "int8_t", "uint8_t"]
      ∧ RefineGen.emittedInstantiations.all
          (fun i => i.distance_t == "float") = true := by
  constructor
  · decide
  · decide

/-- C9: the generator's effect trace is exactly: write
`refine_float_float.cu`, `refine_int8_t_float.cu` and
`refine_uint8_t_float.cu`, each file being the fixed header, one
`instantiate_raft_neighbors_refine` macro invocation and one `#undef`
line, and print `src/neighbors/<filename>` for each file, in the order of
the `types` table. The trace is a fixed value (the run is deterministic)
and each `fileWrite` replaces the target file in full. -/
theorem refine_00_generate_trace :
    RefineGen.refine_00_generate = [
      RefineGen.Effect.fileWrite "refine_float_float.cu"
        (RefineGen.header
          ++ "instantiate_raft_neighbors_refine(int64_t, float, float, int64_t);\n\n"
          ++ "#undef instantiate_raft_neighbors_refine\n"),
      RefineGen.Effect.stdoutLine "src/neighbors/refine_float_float.cu",
      RefineGen.Effect.fileWrite "refine_int8_t_float.cu"
        (RefineGen.header
          ++ "instantiate_raft_neighbors_refine(int64_t, int8_t, float, int64_t);\n\n"
          ++ "#undef instantiate_raft_neighbors_refine\n"),
      RefineGen.Effect.stdoutLine "src/neighbors/refine_int8_t_float.cu",
      RefineGen.Effect.fileWrite "refine_uint8_t_float.cu"
        (RefineGen.header
          ++ "instantiate_raft_neighbors_refine(int64_t, uint8_t, float, int64_t);\n\n"
          ++ "#undef instantiate_raft_neighbors_refine\n"),
      RefineGen.Effect.stdoutLine "src/neighbors/refine_uint8_t_float.cu"] := by
  rfl

/-- C10: every emitted template instantiation fixes `idx_t` and
`matrix_idx` to `int64_t` and the distance type to `float`: of the four
configuration axes only the element type varies across the generated
instantiations. -/
theorem refine_instantiation_fixed_axes :
    RefineGen.emittedInstantiations.all
      (fun i => i.idx_t == "int64_t" && i.matrix_idx == "int64_t"
        && i.distance_t == "float") = true := by
  decide
